import Mathlib

/-!
Shallow embedding of the dynamic custom-field subsystem of the
customer-management repository (Express + MySQL backend, React client).

Tables (src/server/database.sql):
  customers(id, name, dob, phone, email, occupation, location)
  custom_fields(id, name, type ENUM(text,number,date,select), options JSON)
  customer_field_values(customer_id FK, field_id FK, value)

Routes embedded:
  - customers router (src/unnamed/part_001, first document): GET /:id,
    POST /, PUT /:id — these use connection.beginTransaction, so a failure
    rolls the whole operation back to the pre-state.
  - custom-fields EAV router (src/unnamed/part_003): DELETE /:id deletes
    the referencing rows of customer_field_values and then the definition,
    with no transaction (pool.query per statement).
  - custom-fields dynamic-column router (src/server/routes/customFields.js):
    POST / issues START TRANSACTION / INSERT / ALTER TABLE / COMMIT, each
    through pool.query.  With the mysql2 pool, every pool.query call checks
    out an arbitrary connection and releases it, so START TRANSACTION,
    the INSERT, and ROLLBACK run on unrelated connections and every
    statement auto-commits; independently, MySQL DDL (ALTER TABLE)
    implicitly commits any open transaction.  The embedding therefore
    models each statement of this route as committing immediately.
  - client service layer (src/src/services/api.ts): customerService.create
    and customerService.update filter the submitted custom-field entries
    against the ids currently in the field registry before calling the
    server routes; parseCustomFieldOptions (also in
    src/src/services/customFieldService.ts) defensively parses the stored
    options representation.

Machine integers: all ids are MySQL INT AUTO_INCREMENT values, far from
overflow in every scenario considered, so they are embedded as Int with a
freshness counter.  JavaScript builtins used by the code (parseInt,
Number.prototype.toString, JSON.parse, new Date) are embedded as follows:
parseInt and toString by executable functions faithful to their base-10
behaviour; JSON.parse and Date parsing as function parameters, since the
theorems only depend on success or failure of those calls.
-/

namespace CustomDataKeeper

/-- JavaScript runtime value, as needed for the option payloads handled by
parseCustomFieldOptions: null, strings, numbers, booleans and arrays. -/
inductive JsValue where
  | null : JsValue
  | str : String → JsValue
  | num : Int → JsValue
  | boolean : Bool → JsValue
  | arr : List JsValue → JsValue

/-- Whether a JsValue is an array. -/
def JsValue.isArr : JsValue → Bool
  | .arr _ => true
  | _ => false

/-- Whitespace characters skipped by JavaScript parseInt before the digits. -/
def wsChar (c : Char) : Bool :=
  c = ' ' || c = '\t' || c = '\n' || c = '\r'

/-- Optional leading sign, as consumed by parseInt: a leading minus makes the
result negative, a leading plus is skipped. -/
def parseSign : List Char → Bool × List Char
  | '-' :: t => (true, t)
  | '+' :: t => (false, t)
  | cs => (false, cs)

/-- Numeric value of a list of decimal digit characters, most significant
first. -/
def digitsVal (cs : List Char) : Nat :=
  cs.foldl (fun a c => a * 10 + (c.toNat - 48)) 0

/-- JavaScript parseInt(s, 10): skip leading whitespace, read an optional
sign, then the longest prefix of decimal digits; NaN (none) when there is no
digit, otherwise the value of the digits, ignoring any trailing junk. -/
def jsParseInt (s : String) : Option Int :=
  let cs := s.data.dropWhile wsChar
  let p := parseSign cs
  let ds := p.2.takeWhile Char.isDigit
  if ds.isEmpty then none
  else some (if p.1 then -(digitsVal ds : Int) else (digitsVal ds : Int))

/-- Decimal digit characters of a natural number, most significant first;
the rendering produced by JavaScript Number.prototype.toString for a
nonnegative integer. -/
def decChars (n : Nat) : List Char :=
  if _h : n < 10 then [Nat.digitChar n]
  else decChars (n / 10) ++ [Nat.digitChar (n % 10)]
  decreasing_by exact Nat.div_lt_self (by omega) (by omega)

/-- JavaScript Number.prototype.toString for an integer id. -/
def jsToString (i : Int) : String :=
  match i with
  | .ofNat n => String.mk (decChars n)
  | .negSucc m => String.mk ('-' :: decChars (m + 1))

/-- Row of the customers table. -/
structure CustomerRow where
  id : Int
  name : String
  dob : Option String
  phone : String
  email : String
  occupation : String
  location : String
  deriving Repr, DecidableEq

/-- Row of the custom_fields table: a field definition.  ftype is the value
of the ENUM type column; options is the raw JSON column payload (null or a
string). -/
structure FieldRow where
  id : Int
  name : String
  ftype : String
  options : Option String
  deriving Repr, DecidableEq

/-- Row of the customer_field_values table: one customer's stored value for
one field. -/
structure ValueRow where
  customerId : Int
  fieldId : Int
  value : String
  deriving Repr, DecidableEq

/-- Database state: the three tables of the EAV schema, the AUTO_INCREMENT
counters, and the list of dynamically added custom_N columns on the
customers table (dynamic-column strategy). -/
structure DB where
  customers : List CustomerRow
  fields : List FieldRow
  values : List ValueRow
  nextCustomerId : Int
  nextFieldId : Int
  customerCols : List Int
  deriving Repr, DecidableEq

/-- Empty database, counters starting at 1 as AUTO_INCREMENT does. -/
def DB.empty : DB :=
  { customers := [], fields := [], values := [],
    nextCustomerId := 1, nextFieldId := 1, customerCols := [] }

/-- Whether a customer row with the given id exists. -/
def customerExists (db : DB) (cid : Int) : Bool :=
  db.customers.any (fun c => c.id == cid)

/-- Whether a field definition with the given id exists. -/
def fieldExists (db : DB) (fid : Int) : Bool :=
  db.fields.any (fun f => f.id == fid)

/-- Allowed values of the ENUM type column of custom_fields
(src/server/database.sql line 34).  In strict SQL mode an INSERT with any
other value is rejected by the storage engine. -/
def enumTypes : List String := ["text", "number", "date", "select"]

/-- Multi-row INSERT into customer_field_values: succeeds, appending all the
rows, exactly when every row satisfies both foreign keys; otherwise the
statement errors and nothing is inserted. -/
def insertValues (db : DB) (rows : List ValueRow) : Option DB :=
  if rows.all (fun r => customerExists db r.customerId && fieldExists db r.fieldId)
  then some { db with values := db.values ++ rows }
  else none

/-- One submitted custom-field entry of a create/update request body:
an optional id (absent, or a string — numeric ids sent as JSON numbers are
embedded as their decimal rendering, which is what both filters compare
against) and a value. -/
structure SubmittedField where
  id : Option String
  value : String
  deriving Repr, DecidableEq

/-- Request body of the customer create/update routes. -/
structure CustomerInput where
  name : String
  dob : Option String
  phone : String
  email : String
  occupation : String
  location : String
  customFields : Option (List SubmittedField)
  deriving Repr, DecidableEq

/-- Truthiness of the submitted id, as tested by the guards of both filters:
present and not the empty string. -/
def idTruthy : Option String → Bool
  | none => false
  | some s => s != ""

/-- Server-side filter of the customers router (src/unnamed/part_001 lines
103-109 and 173-179): keep an entry when it is truthy, its id is truthy, and
parseInt(id, 10) is not NaN. -/
def entryValid (f : SubmittedField) : Bool :=
  idTruthy f.id && (match f.id with
    | some s => (jsParseInt s).isSome
    | none => false)

/-- The integer id the route inserts for a kept entry: parseInt(id, 10). -/
def entryFieldId (f : SubmittedField) : Int :=
  match f.id with
  | some s => (jsParseInt s).getD 0
  | none => 0

/-- validFieldValues of the customers router: the kept entries, as rows for
the given customer id. -/
def validRows (cid : Int) (fs : Option (List SubmittedField)) : List ValueRow :=
  ((fs.getD []).filter entryValid).map
    (fun f => { customerId := cid, fieldId := entryFieldId f, value := f.value })

/-- formattedDob of the customers router: when dob is truthy and parses as a
date, its YYYY-MM-DD rendering, else null.  dateParse embeds the JavaScript
Date constructor composed with toISOString().split('T')[0]. -/
def formatDob (dateParse : String → Option String) : Option String → Option String
  | none => none
  | some s => if s != "" then dateParse s else none

/-- Outcome of a mutating customer route: the database afterwards, the HTTP
status, the customFields member of the response body (the raw submitted
list, echoed on success), and the customer id the operation was about. -/
structure WriteOutcome where
  db : DB
  status : Nat
  echo : Option (List SubmittedField)
  newId : Int
  deriving Repr, DecidableEq

/-- The base row inserted by POST / of the customers router: the submitted
base attributes under the fresh AUTO_INCREMENT id, with the formatted
date-of-birth. -/
def newCustomerRow (dateParse : String → Option String) (db : DB)
    (input : CustomerInput) : CustomerRow :=
  { id := db.nextCustomerId, name := input.name,
    dob := formatDob dateParse input.dob, phone := input.phone,
    email := input.email, occupation := input.occupation,
    location := input.location }

/-- POST / of the customers router (src/unnamed/part_001 lines 75-140):
inside one connection-scoped transaction, insert the base row with the
formatted dob, then bulk-insert the filtered custom-field rows; commit and
respond 201 echoing the submitted customFields, or roll back to the
pre-state and respond 500. -/
def createCustomer (dateParse : String → Option String) (db : DB)
    (input : CustomerInput) : WriteOutcome :=
  let db1 : DB := { db with customers := db.customers ++ [newCustomerRow dateParse db input],
                            nextCustomerId := db.nextCustomerId + 1 }
  match insertValues db1 (validRows db.nextCustomerId input.customFields) with
  | some db2 => { db := db2, status := 201, echo := input.customFields,
                  newId := db.nextCustomerId }
  | none => { db := db, status := 500, echo := none, newId := db.nextCustomerId }

/-- Effect of the UPDATE statement of PUT /:id on one customers row: rewrite
the base attributes when the id matches, leave the row alone otherwise (an
unknown id matches nothing — the route checks no affected-row count). -/
def updateBaseRow (dateParse : String → Option String) (input : CustomerInput)
    (cid : Int) (c : CustomerRow) : CustomerRow :=
  if c.id == cid then
    { c with name := input.name, dob := formatDob dateParse input.dob,
             phone := input.phone, email := input.email,
             occupation := input.occupation, location := input.location }
  else c

/-- PUT /:id of the customers router (src/unnamed/part_001 lines 143-209):
inside one connection-scoped transaction, UPDATE the base row, DELETE all
stored values of the customer, bulk-insert the filtered submitted values;
commit and respond 200 echoing the submitted customFields, or roll back to
the pre-state and respond 500. -/
def updateCustomer (dateParse : String → Option String) (db : DB) (cid : Int)
    (input : CustomerInput) : WriteOutcome :=
  let db1 : DB :=
    { db with customers := db.customers.map (updateBaseRow dateParse input cid) }
  let db2 : DB := { db1 with values := db1.values.filter (fun v => v.customerId != cid) }
  match insertValues db2 (validRows cid input.customFields) with
  | some db3 => { db := db3, status := 200, echo := input.customFields, newId := cid }
  | none => { db := db, status := 500, echo := none, newId := cid }

/-- One entry of the customFields list assembled by GET /:id of the
customers router: the field definition id, name and type joined with the
stored value. -/
structure FieldEntry where
  id : Int
  name : String
  ftype : String
  value : String
  deriving Repr, DecidableEq

/-- GET /:id of the customers router (src/unnamed/part_001 lines 41-72):
404 (none) when the customer row does not exist, otherwise the base row
together with the stored values inner-joined against custom_fields. -/
def getCustomer (db : DB) (cid : Int) : Option (CustomerRow × List FieldEntry) :=
  match db.customers.find? (fun c => c.id == cid) with
  | none => none
  | some c =>
      some (c, (db.values.filter (fun v => v.customerId == cid)).filterMap
        (fun v => (db.fields.find? (fun f => f.id == v.fieldId)).map
          (fun f => { id := f.id, name := f.name, ftype := f.ftype, value := v.value })))

/-- Stored values of one customer: the rows of customer_field_values whose
customer_id matches. -/
def valuesFor (db : DB) (cid : Int) : List ValueRow :=
  db.values.filter (fun v => v.customerId == cid)

/-- DELETE /:id of the EAV custom-fields router (src/unnamed/part_003 lines
59-78): first DELETE the referencing rows of customer_field_values, then
DELETE the definition; 404 when the second statement affects no row.  The
two statements run through pool.query with no transaction, so the value
deletion persists on either path. -/
def deleteFieldEAV (db : DB) (fid : Int) : DB × Nat :=
  let db1 : DB := { db with values := db.values.filter (fun v => v.fieldId != fid) }
  if db1.fields.any (fun f => f.id == fid) then
    ({ db1 with fields := db1.fields.filter (fun f => f.id != fid) }, 200)
  else (db1, 404)

/-- Outcome of a field-definition route: database afterwards, HTTP status,
and the id of the definition concerned. -/
structure DefineOutcome where
  db : DB
  status : Nat
  fieldId : Int
  deriving Repr, DecidableEq

/-- JSON.stringify of an option list, as stored into the options column by
the define routes; the embedding covers option strings without characters
needing escapes, which is all the theorems evaluate it on. -/
def stringifyOptions (opts : List String) : String :=
  "[" ++ String.intercalate "," (opts.map (fun o => "\"" ++ o ++ "\"")) ++ "]"

/-- POST / of the dynamic-column custom-fields router
(src/server/routes/customFields.js lines 18-64).  Steps, in source order:
400 when name or type is falsy; START TRANSACTION (ineffective: pool.query
statements run on unrelated pooled connections, and the later DDL would
implicitly commit anyway, see the header comment); INSERT the definition —
rejected by the ENUM column when the type is unrecognized; ALTER TABLE ADD
COLUMN custom_fieldId — its success is the alterOk parameter, standing for
the storage engine's verdict on the DDL; COMMIT, or ROLLBACK on error.
Because every statement auto-commits, a failed ALTER leaves the inserted
definition committed. -/
def defineFieldDyn (db : DB) (name ftype : String) (options : Option (List String))
    (alterOk : Bool) : DefineOutcome :=
  if name == "" || ftype == "" then
    { db := db, status := 400, fieldId := 0 }
  else if !(enumTypes.contains ftype) then
    { db := db, status := 500, fieldId := 0 }
  else
    let fid := db.nextFieldId
    let db1 : DB := { db with
      fields := db.fields ++
        [{ id := fid, name := name, ftype := ftype,
           options := options.map stringifyOptions }],
      nextFieldId := fid + 1 }
    if alterOk then
      ({ db := { db1 with customerCols := db1.customerCols ++ [fid] },
         status := 201, fieldId := fid })
    else
      { db := db1, status := 500, fieldId := fid }

/-- POST / of the EAV custom-fields router (src/unnamed/part_003 lines
17-32): a single INSERT with no validation whatsoever; the only failure is
the ENUM column rejecting an unrecognized type.  Storage provisioning is a
no-op under the EAV strategy. -/
def defineFieldEAV (db : DB) (name ftype : String)
    (options : Option (List String)) : DefineOutcome :=
  if !(enumTypes.contains ftype) then
    { db := db, status := 500, fieldId := 0 }
  else
    let fid := db.nextFieldId
    { db := { db with
        fields := db.fields ++
          [{ id := fid, name := name, ftype := ftype,
             options := options.map stringifyOptions }],
        nextFieldId := fid + 1 },
      status := 201, fieldId := fid }

/-- Client-side filter of customerService.create and customerService.update
(src/src/services/api.ts lines 217-221 and 264-267): keep an entry when it
is truthy, its id is truthy, and id.toString() occurs among the ids of the
field definitions fetched from the registry (each rendered by toString). -/
def clientValid (db : DB) (f : SubmittedField) : Bool :=
  idTruthy f.id && (match f.id with
    | some s => db.fields.any (fun fd => jsToString fd.id == s)
    | none => false)

/-- processedData of customerService.create/update: the input with its
customFields replaced by the client-filtered list (an empty list when the
submitted customFields is not an array). -/
def clientProcess (db : DB) (input : CustomerInput) : CustomerInput :=
  { input with customFields := some ((input.customFields.getD []).filter (clientValid db)) }

/-- customerService.create (src/src/services/api.ts lines 201-246), main
path: fetch the registry, filter the submitted custom-field entries against
it, then POST to the customers router. -/
def apiCreate (dateParse : String → Option String) (db : DB)
    (input : CustomerInput) : WriteOutcome :=
  createCustomer dateParse db (clientProcess db input)

/-- customerService.update (src/src/services/api.ts lines 247-293), main
path: fetch the registry, filter the submitted custom-field entries against
it, then PUT to the customers router. -/
def apiUpdate (dateParse : String → Option String) (db : DB) (cid : Int)
    (input : CustomerInput) : WriteOutcome :=
  updateCustomer dateParse db cid (clientProcess db input)

/-- JavaScript String.prototype.includes for a one-character needle, on the
character list of the string. -/
def jsIncludes (s : String) (c : Char) : Bool :=
  s.data.any (fun a => a == c)

/-- JavaScript String.prototype.startsWith for a one-character prefix. -/
def jsStartsWith (s : String) (c : Char) : Bool :=
  match s.data with
  | a :: _ => a == c
  | [] => false

/-- JavaScript String.prototype.split at a separator character, keeping
empty segments, on character lists: split of the empty string is the
singleton empty segment. -/
def splitAtChar (sep : Char) : List Char → List (List Char)
  | [] => [[]]
  | c :: t =>
    if c == sep then [] :: splitAtChar sep t
    else
      match splitAtChar sep t with
      | h :: r => (c :: h) :: r
      | [] => [[c]]

/-- JavaScript String.prototype.split at a separator character. -/
def jsSplit (s : String) (sep : Char) : List String :=
  (splitAtChar sep s.data).map String.mk

/-- JavaScript String.prototype.trim: strip whitespace from both ends (the
option strings handled here are ASCII, where the JavaScript whitespace
class is the one of wsChar). -/
def jsTrim (s : String) : String :=
  String.mk (((s.data.dropWhile wsChar).reverse.dropWhile wsChar).reverse)

/-- A field object as handled by the client option parser: name, type, and
the options payload as a JavaScript value. -/
structure ClientField where
  name : String
  ftype : String
  options : JsValue

/-- parseCustomFieldOptions (src/src/services/customFieldService.ts lines
5-30 and src/src/services/api.ts lines 147-172).  jsonParse embeds the
JSON.parse builtin, none standing for a parse that throws.  A falsy field
is returned as is; when options is a truthy string containing a comma and
not starting with a bracket it is comma-split and trimmed; otherwise a
truthy string is JSON-parsed, the empty array replacing a parse failure;
every other options value is left unchanged. -/
def parseCustomFieldOptions (jsonParse : String → Option JsValue)
    (field : Option ClientField) : Option ClientField :=
  match field with
  | none => none
  | some f =>
    match f.options with
    | JsValue.str s =>
      if s != "" then
        if jsIncludes s ',' && !(jsStartsWith s '[') then
          let parts := JsValue.arr ((jsSplit s ',').map (fun o => JsValue.str (jsTrim o)))
          some { f with options := parts }
        else
          match jsonParse s with
          | some v => some { f with options := v }
          | none => some { f with options := JsValue.arr [] }
      else some f
    | _ => some f

/-- Re-expression of the option-parsing result on the options value alone,
following the amended description of the read-side parsing, to be compared
with the function embedded from the source. -/
def optionsSpec (jsonParse : String → Option JsValue) : JsValue → JsValue
  | JsValue.str s =>
    if s = "" then JsValue.str s
    else if jsIncludes s ',' = true ∧ jsStartsWith s '[' = false then
      JsValue.arr ((jsSplit s ',').map (fun o => JsValue.str (jsTrim o)))
    else
      match jsonParse s with
      | some v => v
      | none => JsValue.arr []
  | v => v

/-- Date-parse instantiation used by the concrete evaluations below: every
date-of-birth string they submit is one on which the JavaScript Date
constructor yields Invalid Date, so the parse returns none on them. -/
def dateParseStub : String → Option String := fun _ => none

/-- JSON-parse instantiation used by the concrete evaluations below: the
evaluated branches never reach JSON.parse, so its result is irrelevant. -/
def jsonParseStub : String → Option JsValue := fun _ => none

/-- Fixture: one field definition (id 1), one customer (id 1) holding one
value for that field. -/
def dbFixture : DB :=
  { customers := [{ id := 1, name := "Ann", dob := none, phone := "p",
                    email := "e", occupation := "o", location := "l" }],
    fields := [{ id := 1, name := "Notes", ftype := "text", options := none }],
    values := [{ customerId := 1, fieldId := 1, value := "x" }],
    nextCustomerId := 2, nextFieldId := 2, customerCols := [] }

/-- Fixture: request body with base attributes only. -/
def inputBase : CustomerInput :=
  { name := "Ann", dob := none, phone := "p", email := "e",
    occupation := "o", location := "l", customFields := none }

/-- Fixture: request body carrying one custom-field entry with a
non-numeric id. -/
def inputBadField : CustomerInput :=
  { inputBase with customFields := some [{ id := some "abc", value := "v" }] }

/-- Fixture: request body carrying one custom-field entry whose id is
numeric but matches no field definition of the empty database. -/
def inputNumericUnknown : CustomerInput :=
  { inputBase with customFields := some [{ id := some "9", value := "v" }] }

/-- Fixture: request body carrying one entry for an unknown field id 999 and
one for the existing field id 1 of dbFixture. -/
def inputMixed : CustomerInput :=
  let entries : List SubmittedField :=
    [{ id := some "999", value := "x" }, { id := some "1", value := "y" }]
  { inputBase with customFields := some entries }

/-- Fixture: request body with an empty submitted custom-field list. -/
def inputEmptyValues : CustomerInput :=
  { inputBase with customFields := some [] }

/-- Fixture: request body whose date-of-birth is present but not a parseable
calendar date. -/
def inputBadDob : CustomerInput := { inputBase with dob := some "not-a-date" }

/-- Fixture: a client-side field object whose options payload is the empty
string. -/
def emptyOptField : ClientField :=
  { name := "Tier", ftype := "select", options := JsValue.str "" }

/-- Fixture: a client-side field object whose options payload is the string
of a JSON scalar — JSON.parse of the string of a digit yields a number, not
an array. -/
def numOptField : ClientField :=
  { name := "Annual Revenue", ftype := "number", options := JsValue.str "5" }

/-- Mapping a function that fixes every element of a list leaves it
unchanged. -/
theorem listMapId {α : Type} (f : α → α) :
    ∀ l : List α, (∀ a ∈ l, f a = a) → l.map f = l
  | [], _ => rfl
  | a :: t, h => by
    simp only [List.map_cons]
    rw [h a (List.mem_cons_self a t),
       listMapId f t (fun b hb => h b (List.mem_cons_of_mem a hb))]

/-- Filtering by a predicate every element satisfies leaves the list
unchanged. -/
theorem listFilterAll {α : Type} (p : α → Bool) :
    ∀ l : List α, (∀ a ∈ l, p a = true) → l.filter p = l
  | [], _ => rfl
  | a :: t, h => by
    simp only [List.filter_cons, h a (List.mem_cons_self a t), if_pos]
    rw [listFilterAll p t (fun b hb => h b (List.mem_cons_of_mem a hb))]

/-- Filtering by a predicate no element satisfies empties the list. -/
theorem listFilterNone {α : Type} (p : α → Bool) :
    ∀ l : List α, (∀ a ∈ l, p a = false) → l.filter p = []
  | [], _ => rfl
  | a :: t, h => by
    simp only [List.filter_cons, h a (List.mem_cons_self a t)]
    exact listFilterNone p t (fun b hb => h b (List.mem_cons_of_mem a hb))

/-- takeWhile of a predicate every element satisfies returns the whole
list. -/
theorem listTakeWhileAll {α : Type} (p : α → Bool) :
    ∀ l : List α, (∀ a ∈ l, p a = true) → l.takeWhile p = l
  | [], _ => rfl
  | a :: t, h => by
    simp only [List.takeWhile_cons, h a (List.mem_cons_self a t), if_pos]
    rw [listTakeWhileAll p t (fun b hb => h b (List.mem_cons_of_mem a hb))]

/-- dropWhile keeps a list whose head already fails the predicate. -/
theorem listDropWhileHead {α : Type} (p : α → Bool) (a : α) (t : List α)
    (h : p a = false) : (a :: t).dropWhile p = a :: t := by
  simp [List.dropWhile_cons, h]

/-- find? skips a prefix none of whose elements satisfies the predicate. -/
theorem listFindAppend {α : Type} (p : α → Bool) :
    ∀ l r : List α, (∀ a ∈ l, p a = false) → List.find? p (l ++ r) = List.find? p r
  | [], _, _ => rfl
  | a :: t, r, h => by
    simp only [List.cons_append, List.find?_cons, h a (List.mem_cons_self a t)]
    exact listFindAppend p t r (fun b hb => h b (List.mem_cons_of_mem a hb))

/-- The characters rendered for a digit below ten are decimal digits. -/
theorem digitChar_isDigit {d : Nat} (h : d < 10) :
    (Nat.digitChar d).isDigit = true := by
  interval_cases d <;> decide

/-- Numeric value of the character rendered for a digit below ten. -/
theorem digitChar_val {d : Nat} (h : d < 10) :
    (Nat.digitChar d).toNat - 48 = d := by
  interval_cases d <;> decide

/-- Every character of the decimal rendering is a digit. -/
theorem decChars_digits (n : Nat) : ∀ c ∈ decChars n, c.isDigit = true := by
  induction n using decChars.induct with
  | case1 n h =>
    rw [decChars, dif_pos h]
    intro c hc
    rw [List.mem_singleton] at hc
    rw [hc]
    exact digitChar_isDigit h
  | case2 n h ih =>
    rw [decChars, dif_neg h]
    intro c hc
    rcases List.mem_append.mp hc with h1 | h2
    · exact ih c h1
    · rw [List.mem_singleton] at h2
      rw [h2]
      exact digitChar_isDigit (Nat.mod_lt n (by omega))

/-- The decimal rendering is never empty. -/
theorem decChars_ne_nil (n : Nat) : decChars n ≠ [] := by
  rw [decChars]
  split
  · simp
  · simp

/-- Dropping the step of digitsVal onto a final digit. -/
theorem digitsVal_append (xs : List Char) (c : Char) :
    digitsVal (xs ++ [c]) = digitsVal xs * 10 + (c.toNat - 48) := by
  simp [digitsVal, List.foldl_append]

/-- Folding the decimal rendering of a natural number recovers it. -/
theorem digitsVal_decChars (n : Nat) : digitsVal (decChars n) = n := by
  induction n using decChars.induct with
  | case1 n h =>
    rw [decChars, dif_pos h]
    show digitsVal ([] ++ [Nat.digitChar n]) = n
    rw [digitsVal_append]
    simp [digitsVal, digitChar_val h]
  | case2 n h ih =>
    rw [decChars, dif_neg h]
    rw [digitsVal_append, ih, digitChar_val (Nat.mod_lt n (by omega))]
    omega

/-- A digit character is not parseInt whitespace. -/
theorem isDigit_not_ws {c : Char} (h : c.isDigit = true) : wsChar c = false := by
  rcases eq_or_ne c ' ' with rfl | h1
  · exact absurd h (by decide)
  rcases eq_or_ne c '\t' with rfl | h2
  · exact absurd h (by decide)
  rcases eq_or_ne c '\n' with rfl | h3
  · exact absurd h (by decide)
  rcases eq_or_ne c '\r' with rfl | h4
  · exact absurd h (by decide)
  simp [wsChar, h1, h2, h3, h4]

/-- A digit character opens no sign, so parseSign leaves the list alone. -/
theorem parseSign_digit {c : Char} (t : List Char) (h : c.isDigit = true) :
    parseSign (c :: t) = (false, c :: t) := by
  have h1 : c ≠ '-' := by rintro rfl; exact absurd h (by decide)
  have h2 : c ≠ '+' := by rintro rfl; exact absurd h (by decide)
  simp [parseSign, h1, h2]

/-- parseInt recovers any integer from its toString rendering: the pair of
builtins the registry-membership filter and the route-side filter apply to
the same submitted id. -/
theorem jsParseInt_jsToString (i : Int) : jsParseInt (jsToString i) = some i := by
  cases i with
  | ofNat n =>
    have hne := decChars_ne_nil n
    have hdig := decChars_digits n
    rcases hd : decChars n with _ | ⟨a, t⟩
    · exact absurd hd hne
    have ha : a.isDigit = true := hdig a (by rw [hd]; exact List.mem_cons_self a t)
    have hat : ∀ c ∈ a :: t, Char.isDigit c = true := by rw [← hd]; exact hdig
    show jsParseInt (String.mk (decChars n)) = some (Int.ofNat n)
    have e1 : (String.mk (decChars n)).data.dropWhile wsChar = a :: t := by
      rw [show (String.mk (decChars n)).data = decChars n from rfl, hd]
      exact listDropWhileHead wsChar a t (isDigit_not_ws ha)
    have e2 : parseSign (a :: t) = (false, a :: t) := parseSign_digit t ha
    have e3 : (a :: t).takeWhile Char.isDigit = a :: t := listTakeWhileAll _ _ hat
    have e4 : digitsVal (a :: t) = n := by rw [← hd]; exact digitsVal_decChars n
    simp only [jsParseInt, e1, e2, e3, e4, List.isEmpty_cons, Bool.false_eq_true,
      if_false, Int.ofNat_eq_coe]
  | negSucc m =>
    have hdig := decChars_digits (m + 1)
    rcases hd : decChars (m + 1) with _ | ⟨a, t⟩
    · exact absurd hd (decChars_ne_nil (m + 1))
    show jsParseInt (String.mk ('-' :: decChars (m + 1))) = some (Int.negSucc m)
    have e1 : (String.mk ('-' :: decChars (m + 1))).data.dropWhile wsChar
        = '-' :: decChars (m + 1) :=
      listDropWhileHead wsChar _ _ (by decide)
    have e2 : parseSign ('-' :: decChars (m + 1)) = (true, decChars (m + 1)) := by
      simp [parseSign]
    have e3 : (decChars (m + 1)).takeWhile Char.isDigit = decChars (m + 1) :=
      listTakeWhileAll _ _ hdig
    have e4 : digitsVal (decChars (m + 1)) = m + 1 := digitsVal_decChars (m + 1)
    have e1' : List.dropWhile wsChar ('-' :: decChars (m + 1)) = '-' :: decChars (m + 1) :=
      listDropWhileHead wsChar _ _ (by decide)
    have e5 : (decChars (m + 1)).isEmpty = false := by rw [hd]; rfl
    simp only [jsParseInt, e1', e2, e3, e4, e5, Bool.false_eq_true, if_false, if_true]
    exact congrArg some (by rw [Int.negSucc_eq]; omega)

/-- An entry kept by the client-side registry filter is also kept by the
route-side numeric filter, and its parsed id is a registry id. -/
theorem clientValid_entryValid {db : DB} {f : SubmittedField}
    (h : clientValid db f = true) :
    entryValid f = true ∧ fieldExists db (entryFieldId f) = true := by
  rcases hid : f.id with _ | s
  · rw [clientValid, hid] at h
    simp [idTruthy] at h
  · rw [clientValid, hid] at h
    rw [Bool.and_eq_true] at h
    obtain ⟨h1, h2⟩ := h
    rw [List.any_eq_true] at h2
    obtain ⟨fd, hfd, hbeq⟩ := h2
    have hs : jsToString fd.id = s := beq_iff_eq.mp hbeq
    have hparse : jsParseInt s = some fd.id := by
      rw [← hs]
      exact jsParseInt_jsToString fd.id
    refine ⟨?_, ?_⟩
    · rw [entryValid, hid]
      simp [h1, hparse]
    · rw [entryFieldId, hid]
      simp only [hparse, Option.getD_some]
      rw [fieldExists, List.any_eq_true]
      exact ⟨fd, hfd, by simp⟩

/-- Characterization of the rows the routes build from the kept entries. -/
theorem validRows_mem {cid : Int} {fs : Option (List SubmittedField)} {r : ValueRow}
    (h : r ∈ validRows cid fs) :
    r.customerId = cid ∧
    ∃ f ∈ (fs.getD []).filter entryValid, r.fieldId = entryFieldId f := by
  rw [validRows, List.mem_map] at h
  obtain ⟨f, hf, hr⟩ := h
  subst hr
  exact ⟨rfl, f, hf, rfl⟩

/-- Rows built from a client-filtered list reference only existing
fields. -/
theorem clientRows_fk {db : DB} {cid : Int} {l : List SubmittedField} {r : ValueRow}
    (h : r ∈ validRows cid (some (l.filter (clientValid db)))) :
    r.customerId = cid ∧ fieldExists db r.fieldId = true := by
  obtain ⟨hc, f, hf, hr⟩ := validRows_mem h
  refine ⟨hc, ?_⟩
  have hf1 : f ∈ l.filter (clientValid db) := (List.mem_filter.mp hf).1
  have hcv : clientValid db f = true := (List.mem_filter.mp hf1).2
  rw [hr]
  exact (clientValid_entryValid hcv).2

/-- insertValues succeeds and appends when every row satisfies both foreign
keys. -/
theorem insertValues_some {db : DB} {rows : List ValueRow}
    (h : ∀ r ∈ rows, customerExists db r.customerId = true ∧ fieldExists db r.fieldId = true) :
    insertValues db rows = some { db with values := db.values ++ rows } := by
  have hcond : rows.all
      (fun r => customerExists db r.customerId && fieldExists db r.fieldId) = true := by
    rw [List.all_eq_true]
    intro r hr
    rw [(h r hr).1, (h r hr).2]
    rfl
  rw [insertValues, if_pos hcond]

/-- insertValues fails when some row references a nonexistent customer. -/
theorem insertValues_none {db : DB} {rows : List ValueRow} {r : ValueRow}
    (hr : r ∈ rows) (h : customerExists db r.customerId = false) :
    insertValues db rows = none := by
  have hcond : ¬ (rows.all
      (fun r => customerExists db r.customerId && fieldExists db r.fieldId) = true) := by
    rw [List.all_eq_true]
    intro hall
    have h2 := hall r hr
    rw [h] at h2
    simp at h2
  rw [insertValues, if_neg hcond]

/-- The UPDATE statement preserves row ids. -/
theorem updateBaseRow_id (dp : String → Option String) (input : CustomerInput)
    (cid : Int) (c : CustomerRow) : (updateBaseRow dp input cid c).id = c.id := by
  rw [updateBaseRow]
  split <;> rfl

/-- any is determined by the pointwise values of the predicate. -/
theorem listAnyCongr {α : Type} (p q : α → Bool) :
    ∀ l : List α, (∀ a ∈ l, p a = q a) → l.any p = l.any q
  | [], _ => rfl
  | a :: t, h => by
    simp only [List.any_cons, h a (List.mem_cons_self a t)]
    rw [listAnyCongr p q t (fun b hb => h b (List.mem_cons_of_mem a hb))]

/-- customerExists is invariant under the base-row UPDATE. -/
theorem customerExists_updateBase (dp : String → Option String)
    (input : CustomerInput) (cid : Int) (db : DB) (cid2 : Int) :
    customerExists
      { db with customers := db.customers.map (updateBaseRow dp input cid) } cid2
      = customerExists db cid2 := by
  rw [customerExists, customerExists]
  show (db.customers.map (updateBaseRow dp input cid)).any (fun c => c.id == cid2)
    = db.customers.any (fun c => c.id == cid2)
  rw [List.any_map]
  exact listAnyCongr _ _ db.customers
    (fun c _ => by simp [Function.comp, updateBaseRow_id])

/-- An existing customer's id is matched by no value row of a database whose
value rows all reference existing customers and whose counter is fresh. -/
theorem valueRow_ne_fresh {db : DB} {v : ValueRow}
    (hvals : ∀ w ∈ db.values, customerExists db w.customerId = true)
    (hfresh : ∀ c ∈ db.customers, c.id < db.nextCustomerId)
    (hv : v ∈ db.values) : (v.customerId == db.nextCustomerId) = false := by
  have h1 := hvals v hv
  rw [customerExists, List.any_eq_true] at h1
  obtain ⟨c, hc, hbeq⟩ := h1
  have hceq : c.id = v.customerId := beq_iff_eq.mp hbeq
  have := hfresh c hc
  rw [beq_eq_false_iff_ne]
  omega

/-- Shape of a successful create: status 201, the fresh id, the echoed
submitted list, and stored values of the new customer equal to the kept
rows. -/
theorem createCustomer_success (dp : String → Option String) (db : DB)
    (input : CustomerInput)
    (hvals : ∀ v ∈ db.values, customerExists db v.customerId = true)
    (hfresh : ∀ c ∈ db.customers, c.id < db.nextCustomerId)
    (hf : ∀ r ∈ validRows db.nextCustomerId input.customFields,
      fieldExists db r.fieldId = true) :
    (createCustomer dp db input).status = 201 ∧
    (createCustomer dp db input).newId = db.nextCustomerId ∧
    (createCustomer dp db input).echo = input.customFields ∧
    valuesFor (createCustomer dp db input).db db.nextCustomerId
      = validRows db.nextCustomerId input.customFields := by
  have hins : insertValues
      { db with customers := db.customers ++ [newCustomerRow dp db input],
                nextCustomerId := db.nextCustomerId + 1 }
      (validRows db.nextCustomerId input.customFields)
      = some { db with
          customers := db.customers ++ [newCustomerRow dp db input],
          nextCustomerId := db.nextCustomerId + 1,
          values := db.values ++ validRows db.nextCustomerId input.customFields } := by
    apply insertValues_some
    intro r hr
    refine ⟨?_, hf r hr⟩
    rw [(validRows_mem hr).1]
    show (db.customers ++ [newCustomerRow dp db input]).any
      (fun c => c.id == db.nextCustomerId) = true
    rw [List.any_append]
    have hrow : ((newCustomerRow dp db input).id == db.nextCustomerId) = true := by
      rw [newCustomerRow]
      exact beq_self_eq_true _
    simp [hrow]
  simp only [createCustomer, hins]
  refine ⟨trivial, trivial, trivial, ?_⟩
  show (db.values ++ validRows db.nextCustomerId input.customFields).filter
    (fun v => v.customerId == db.nextCustomerId)
    = validRows db.nextCustomerId input.customFields
  rw [List.filter_append]
  rw [listFilterNone _ db.values (fun v hv => valueRow_ne_fresh hvals hfresh hv)]
  rw [listFilterAll _ _ (fun r hr => by
    rw [(validRows_mem hr).1]
    exact beq_self_eq_true _)]
  rfl

/-- Shape of a successful update of an existing customer: status 200, the
echoed submitted list, and stored values replaced by the kept rows. -/
theorem updateCustomer_success (dp : String → Option String) (db : DB)
    (cid : Int) (input : CustomerInput)
    (hc : customerExists db cid = true)
    (hf : ∀ r ∈ validRows cid input.customFields, fieldExists db r.fieldId = true) :
    (updateCustomer dp db cid input).status = 200 ∧
    (updateCustomer dp db cid input).echo = input.customFields ∧
    valuesFor (updateCustomer dp db cid input).db cid
      = validRows cid input.customFields := by
  have hins : insertValues
      { db with customers := db.customers.map (updateBaseRow dp input cid),
                values := db.values.filter (fun v => v.customerId != cid) }
      (validRows cid input.customFields)
      = some { db with
          customers := db.customers.map (updateBaseRow dp input cid),
          values := (db.values.filter (fun v => v.customerId != cid))
            ++ validRows cid input.customFields } := by
    apply insertValues_some
    intro r hr
    constructor
    · rw [(validRows_mem hr).1]
      have := customerExists_updateBase dp input cid
        { db with values := db.values.filter (fun v => v.customerId != cid) } cid
      exact this.trans hc
    · exact hf r hr
  simp only [updateCustomer, hins]
  refine ⟨trivial, trivial, ?_⟩
  show ((db.values.filter (fun v => v.customerId != cid))
      ++ validRows cid input.customFields).filter (fun v => v.customerId == cid)
    = validRows cid input.customFields
  rw [List.filter_append]
  rw [listFilterNone _ _ (fun v hv => by
    have h2 := (List.mem_filter.mp hv).2
    rw [beq_eq_false_iff_ne]
    exact bne_iff_ne.mp h2)]
  rw [listFilterAll _ _ (fun r hr => by
    rw [(validRows_mem hr).1]
    exact beq_self_eq_true _)]
  rfl

/-- The create route, with its let bindings unfolded. -/
theorem createCustomer_eq (dp : String → Option String) (db : DB)
    (input : CustomerInput) :
    createCustomer dp db input =
      match insertValues
        { db with customers := db.customers ++ [newCustomerRow dp db input],
                  nextCustomerId := db.nextCustomerId + 1 }
        (validRows db.nextCustomerId input.customFields) with
      | some db2 => { db := db2, status := 201, echo := input.customFields,
                      newId := db.nextCustomerId }
      | none => { db := db, status := 500, echo := none,
                  newId := db.nextCustomerId } := rfl

/-- The update route, with its let bindings unfolded. -/
theorem updateCustomer_eq (dp : String → Option String) (db : DB) (cid : Int)
    (input : CustomerInput) :
    updateCustomer dp db cid input =
      match insertValues
        { db with customers := db.customers.map (updateBaseRow dp input cid),
                  values := db.values.filter (fun v => v.customerId != cid) }
        (validRows cid input.customFields) with
      | some db3 => { db := db3, status := 200, echo := input.customFields,
                      newId := cid }
      | none => { db := db, status := 500, echo := none, newId := cid } := rfl

/-- C1: for every database, field id and customer id, once the EAV
custom-field delete route has reported success for the field, no stored
FieldValue row references the deleted field id, and the assembled customer
record contains no customFields entry under that id; the value deletion is
issued before the definition deletion, so no dangling reference is
observable. -/
theorem C1_remove_field_cascades (db : DB) (fid cid : Int)
    (h : (deleteFieldEAV db fid).2 = 200) :
    (∀ v ∈ (deleteFieldEAV db fid).1.values, v.fieldId ≠ fid) ∧
    (∀ r, getCustomer (deleteFieldEAV db fid).1 cid = some r →
      ∀ e ∈ r.2, e.id ≠ fid) := by
  have hvals : ∀ v ∈ (deleteFieldEAV db fid).1.values, v.fieldId ≠ fid := by
    intro v hv
    have hmem : v ∈ db.values.filter (fun v => v.fieldId != fid) := by
      rw [deleteFieldEAV] at hv
      dsimp only at hv
      split at hv
      · exact hv
      · exact hv
    exact bne_iff_ne.mp (List.mem_filter.mp hmem).2
  refine ⟨hvals, ?_⟩
  intro r hr e he
  rcases hfind : ((deleteFieldEAV db fid).1.customers.find? (fun c => c.id == cid))
    with _ | c
  · rw [getCustomer, hfind] at hr
    cases hr
  · rw [getCustomer, hfind] at hr
    rw [Option.some_inj] at hr
    subst hr
    obtain ⟨v, hv, hmap⟩ := List.mem_filterMap.mp he
    rcases hfind2 : ((deleteFieldEAV db fid).1.fields.find? (fun f => f.id == v.fieldId))
      with _ | fd
    · rw [hfind2] at hmap
      cases hmap
    · rw [hfind2] at hmap
      have heid : e.id = fd.id := by
        rw [Option.map_some'] at hmap
        rw [← Option.some_inj.mp hmap]
      have hfp0 := List.find?_some hfind2
      have hfp : fd.id = v.fieldId := beq_iff_eq.mp hfp0
      have hvne : v.fieldId ≠ fid := hvals v (List.mem_filter.mp hv).1
      rw [heid, hfp]
      exact hvne

/-- C1 witness: deleting field 1 of the fixture database succeeds and the
conclusions hold there. -/
theorem C1_remove_field_cascades_witness :
    (deleteFieldEAV dbFixture 1).2 = 200 ∧
    ((∀ v ∈ (deleteFieldEAV dbFixture 1).1.values, v.fieldId ≠ 1) ∧
     (∀ r, getCustomer (deleteFieldEAV dbFixture 1).1 1 = some r →
       ∀ e ∈ r.2, e.id ≠ 1)) :=
  ⟨by decide, C1_remove_field_cascades dbFixture 1 1 (by decide)⟩

/-- C2: the dynamic-column define route is not atomic with respect to
storage provisioning: evaluated at define(Age, number) with the ALTER TABLE
ADD COLUMN statement failing, the route reports the 500 error, yet the
field definition stays committed while no column was provisioned — because
every statement of the route runs through pool.query on its own pooled
connection (and MySQL DDL implicitly commits), the ROLLBACK undoes
nothing. -/
theorem C2_define_commits_despite_failed_ddl :
    (defineFieldDyn DB.empty "Age" "number" none false).status = 500 ∧
    (defineFieldDyn DB.empty "Age" "number" none false).db.fields
      = [{ id := 1, name := "Age", ftype := "number", options := none }] ∧
    (defineFieldDyn DB.empty "Age" "number" none false).db.customerCols = [] := by
  decide

/-- C6 counterexample: define(Tier, select) with options absent is accepted
with status 201 and the definition is persisted with null options, where
the claim demanded a ValidationError and no persisted definition. -/
theorem C6_select_without_options_accepted :
    (defineFieldDyn DB.empty "Tier" "select" none true).status = 201 ∧
    (defineFieldDyn DB.empty "Tier" "select" none true).db.fields
      = [{ id := 1, name := "Tier", ftype := "select", options := none }] := by
  decide

/-- C6 amended: define rejects with the 400 validation error exactly the
missing/empty name or type, leaving the database unchanged; an unrecognized
dataType is rejected by the storage ENUM as a 500 storage error, not a
validation error; select with absent options is accepted, persisting the
definition with null options. -/
theorem C6_define_validation_amended (db : DB) (nm t : String)
    (opts : Option (List String)) (alterOk : Bool) :
    (nm = "" ∨ t = "" →
      defineFieldDyn db nm t opts alterOk = { db := db, status := 400, fieldId := 0 }) ∧
    (nm ≠ "" → t ≠ "" → enumTypes.contains t = false →
      defineFieldDyn db nm t opts alterOk = { db := db, status := 500, fieldId := 0 }) ∧
    (nm ≠ "" →
      (defineFieldDyn db nm "select" none alterOk).db.fields
        = db.fields ++ [{ id := db.nextFieldId, name := nm, ftype := "select",
                          options := none }] ∧
      (alterOk = true → (defineFieldDyn db nm "select" none alterOk).status = 201)) := by
  refine ⟨?_, ?_, ?_⟩
  · rintro (rfl | rfl)
    · simp [defineFieldDyn]
    · simp [defineFieldDyn]
  · intro h1 h2 h3
    have hcond : (nm == "" || t == "") = false := by
      simp [h1, h2]
    rw [defineFieldDyn, if_neg (by rw [hcond]; exact Bool.false_ne_true), if_pos (by rw [h3]; rfl)]
  · intro h1
    have hcond : (nm == "" || "select" == "") = false := by
      simp [h1]
    have henum : (!(enumTypes.contains "select")) = false := by decide
    constructor
    · rw [defineFieldDyn, if_neg (by rw [hcond]; exact Bool.false_ne_true),
         if_neg (by rw [henum]; exact Bool.false_ne_true)]
      cases alterOk <;> rfl
    · intro halter
      subst halter
      rw [defineFieldDyn, if_neg (by rw [hcond]; exact Bool.false_ne_true),
         if_neg (by rw [henum]; exact Bool.false_ne_true)]
      rfl

/-- C6 witness: the amended clauses evaluated at concrete inputs — empty
name rejected with 400, unrecognized type rejected with 500, select without
options persisted. -/
theorem C6_define_validation_amended_witness :
    defineFieldDyn DB.empty "" "text" none true
      = { db := DB.empty, status := 400, fieldId := 0 } ∧
    defineFieldDyn DB.empty "Age" "fancy" none true
      = { db := DB.empty, status := 500, fieldId := 0 } ∧
    (defineFieldDyn DB.empty "Tier" "select" none true).db.fields
      = [{ id := 1, name := "Tier", ftype := "select", options := none }] :=
  ⟨(C6_define_validation_amended DB.empty "" "text" none true).1 (Or.inl rfl),
   (C6_define_validation_amended DB.empty "Age" "fancy" none true).2.1
     (by decide) (by decide) (by decide),
   ((C6_define_validation_amended DB.empty "Tier" "select" none true).2.2
     (by decide)).1.trans (by decide)⟩

/-- C7: the customer create route is atomic: whenever it does not succeed,
it rolls the transaction back — the caller receives the single 500 error,
the database is unchanged, and no customer is retrievable under the
attempted fresh id. -/
theorem C7_create_rolls_back (dp : String → Option String) (db : DB)
    (input : CustomerInput)
    (hfresh : ∀ c ∈ db.customers, c.id < db.nextCustomerId)
    (hfail : (createCustomer dp db input).status ≠ 201) :
    (createCustomer dp db input).status = 500 ∧
    (createCustomer dp db input).db = db ∧
    getCustomer (createCustomer dp db input).db db.nextCustomerId = none := by
  rcases hins : insertValues
      { db with customers := db.customers ++ [newCustomerRow dp db input],
                nextCustomerId := db.nextCustomerId + 1 }
      (validRows db.nextCustomerId input.customFields) with _ | db2
  · have houtcome : createCustomer dp db input
        = { db := db, status := 500, echo := none, newId := db.nextCustomerId } := by
      rw [createCustomer_eq, hins]
    rw [houtcome]
    refine ⟨rfl, rfl, ?_⟩
    show getCustomer db db.nextCustomerId = none
    have hnone : db.customers.find? (fun c => c.id == db.nextCustomerId) = none := by
      rw [List.find?_eq_none]
      intro c hc
      have := hfresh c hc
      simp only [beq_iff_eq]
      omega
    rw [getCustomer, hnone]
  · exfalso
    apply hfail
    rw [createCustomer_eq, hins]

/-- C7 witness: on the empty database, a create submitting a numeric but
nonexistent field id fails the value insert; the route rolls back and the
attempted id resolves to nothing. -/
theorem C7_create_rolls_back_witness :
    (createCustomer dateParseStub DB.empty inputNumericUnknown).status ≠ 201 ∧
    ((createCustomer dateParseStub DB.empty inputNumericUnknown).status = 500 ∧
     (createCustomer dateParseStub DB.empty inputNumericUnknown).db = DB.empty ∧
     getCustomer (createCustomer dateParseStub DB.empty inputNumericUnknown).db 1
       = none) :=
  ⟨by decide,
   C7_create_rolls_back dateParseStub DB.empty inputNumericUnknown
     (by decide) (by decide)⟩

/-- C3: through the composed create/update pipeline (the client-side
registry filter of the service layer followed by the server route), a
submitted entry whose fieldId does not currently exist in the registry does
not fail the operation: the write succeeds and the stored record holds no
value under that fieldId — the entry is dropped before insert. -/
theorem C3_unknown_field_ids_dropped (dp : String → Option String) (db : DB)
    (cid : Int) (input : CustomerInput)
    (hvals : ∀ v ∈ db.values, customerExists db v.customerId = true)
    (hfresh : ∀ c ∈ db.customers, c.id < db.nextCustomerId)
    (hcust : customerExists db cid = true) :
    ∀ fid : Int, fieldExists db fid = false →
      ((apiCreate dp db input).status = 201 ∧
        ∀ v ∈ valuesFor (apiCreate dp db input).db (apiCreate dp db input).newId,
          v.fieldId ≠ fid) ∧
      ((apiUpdate dp db cid input).status = 200 ∧
        ∀ v ∈ valuesFor (apiUpdate dp db cid input).db cid, v.fieldId ≠ fid) := by
  intro fid hfid
  have hprocessed : (clientProcess db input).customFields
      = some ((input.customFields.getD []).filter (clientValid db)) := rfl
  constructor
  · have hfc : ∀ r ∈ validRows db.nextCustomerId (clientProcess db input).customFields,
        fieldExists db r.fieldId = true := by
      intro r hr
      rw [hprocessed] at hr
      exact (clientRows_fk hr).2
    obtain ⟨hs1, hs2, _, hs4⟩ :=
      createCustomer_success dp db (clientProcess db input) hvals hfresh hfc
    constructor
    · exact hs1
    · show ∀ v ∈ valuesFor (createCustomer dp db (clientProcess db input)).db
        (createCustomer dp db (clientProcess db input)).newId, v.fieldId ≠ fid
      rw [hs2, hs4]
      intro v hv hcontra
      have hfe := hfc v hv
      rw [hcontra, hfid] at hfe
      cases hfe
  · have hfc : ∀ r ∈ validRows cid (clientProcess db input).customFields,
        fieldExists db r.fieldId = true := by
      intro r hr
      rw [hprocessed] at hr
      exact (clientRows_fk hr).2
    obtain ⟨hu1, _, hu3⟩ :=
      updateCustomer_success dp db cid (clientProcess db input) hcust hfc
    constructor
    · exact hu1
    · show ∀ v ∈ valuesFor (updateCustomer dp db cid (clientProcess db input)).db cid,
        v.fieldId ≠ fid
      rw [hu3]
      intro v hv hcontra
      have hfe := hfc v hv
      rw [hcontra, hfid] at hfe
      cases hfe

/-- C3 witness: on the fixture database (registry holding field 1 only), a
request submitting field ids 999 and 1 succeeds through create and update
and stores nothing under 999. -/
theorem C3_unknown_field_ids_dropped_witness :
    ((apiCreate dateParseStub dbFixture inputMixed).status = 201 ∧
      ∀ v ∈ valuesFor (apiCreate dateParseStub dbFixture inputMixed).db
        (apiCreate dateParseStub dbFixture inputMixed).newId, v.fieldId ≠ 999) ∧
    ((apiUpdate dateParseStub dbFixture 1 inputMixed).status = 200 ∧
      ∀ v ∈ valuesFor (apiUpdate dateParseStub dbFixture 1 inputMixed).db 1,
        v.fieldId ≠ 999) :=
  C3_unknown_field_ids_dropped dateParseStub dbFixture 1 inputMixed
    (by decide) (by decide) (by decide) 999 (by decide)

/-- C4 counterexample: updating the nonexistent customer id 5 of the empty
database reports success with status 200 — the route checks no affected-row
count — where the claim demanded a NotFoundError. -/
theorem C4_update_unknown_id_returns_success :
    customerExists DB.empty 5 = false ∧
    (updateCustomer dateParseStub DB.empty 5 inputBase).status = 200 := by
  decide

/-- C4 amended: update of an unknown customer id never reports NotFoundError
and changes no stored state: with no kept submitted value it reports plain
success (200), and with kept values it fails with the 500 storage error
(foreign-key violation on the insert); the database is unchanged in both
cases. -/
theorem C4_update_unknown_id_amended (dp : String → Option String) (db : DB)
    (cid : Int) (input : CustomerInput)
    (h1 : customerExists db cid = false)
    (h2 : ∀ v ∈ db.values, customerExists db v.customerId = true) :
    (updateCustomer dp db cid input).db = db ∧
    (updateCustomer dp db cid input).status ≠ 404 ∧
    (validRows cid input.customFields = [] →
      (updateCustomer dp db cid input).status = 200) ∧
    (validRows cid input.customFields ≠ [] →
      (updateCustomer dp db cid input).status = 500) := by
  have hmap : db.customers.map (updateBaseRow dp input cid) = db.customers := by
    apply listMapId
    intro c hc
    rw [updateBaseRow, if_neg]
    intro hbeq
    have hany : db.customers.any (fun c => c.id == cid) = true :=
      List.any_eq_true.mpr ⟨c, hc, hbeq⟩
    rw [customerExists] at h1
    rw [h1] at hany
    cases hany
  have hfilt : db.values.filter (fun v => v.customerId != cid) = db.values := by
    apply listFilterAll
    intro v hv
    rw [bne_iff_ne]
    intro hvc
    have hce := h2 v hv
    rw [hvc, h1] at hce
    cases hce
  rcases hrows : validRows cid input.customFields with _ | ⟨r, rs⟩
  · have hins : insertValues
        { db with customers := db.customers.map (updateBaseRow dp input cid),
                  values := db.values.filter (fun v => v.customerId != cid) }
        (validRows cid input.customFields)
        = some { db with
            customers := db.customers.map (updateBaseRow dp input cid),
            values := (db.values.filter (fun v => v.customerId != cid))
              ++ validRows cid input.customFields } := by
      apply insertValues_some
      rw [hrows]
      intro r hr
      cases hr
    have houtcome : updateCustomer dp db cid input
        = { db := { db with
              customers := db.customers.map (updateBaseRow dp input cid),
              values := (db.values.filter (fun v => v.customerId != cid))
                ++ validRows cid input.customFields },
            status := 200, echo := input.customFields, newId := cid } := by
      rw [updateCustomer_eq, hins]
    rw [houtcome]
    have hdbeq : { db with
        customers := db.customers.map (updateBaseRow dp input cid),
        values := (db.values.filter (fun v => v.customerId != cid))
          ++ validRows cid input.customFields } = db := by
      rw [hrows, List.append_nil, hmap, hfilt]
    refine ⟨hdbeq, by simp, fun _ => rfl, fun hne => absurd rfl hne⟩
  · have hrmem : r ∈ validRows cid input.customFields := by
      rw [hrows]
      exact List.mem_cons_self r rs
    have hrc : r.customerId = cid := (validRows_mem hrmem).1
    have hnotc : customerExists
        { db with customers := db.customers.map (updateBaseRow dp input cid),
                  values := db.values.filter (fun v => v.customerId != cid) }
        r.customerId = false := by
      rw [customerExists]
      show (db.customers.map (updateBaseRow dp input cid)).any
        (fun c => c.id == r.customerId) = false
      rw [hmap, hrc]
      exact h1
    have hins := insertValues_none hrmem hnotc
    have houtcome : updateCustomer dp db cid input
        = { db := db, status := 500, echo := none, newId := cid } := by
      rw [updateCustomer_eq, hins]
    rw [houtcome]
    refine ⟨rfl, by simp, ?_, fun _ => rfl⟩
    intro hempty
    exact absurd hempty (List.cons_ne_nil r rs)

/-- C4 witness: the amended statement evaluated with the unknown id 5
against the fixture database and a base-only request body: success with 200
and an unchanged database. -/
theorem C4_update_unknown_id_amended_witness :
    (updateCustomer dateParseStub dbFixture 5 inputBase).db = dbFixture ∧
    (updateCustomer dateParseStub dbFixture 5 inputBase).status ≠ 404 ∧
    (validRows 5 inputBase.customFields = [] →
      (updateCustomer dateParseStub dbFixture 5 inputBase).status = 200) ∧
    (validRows 5 inputBase.customFields ≠ [] →
      (updateCustomer dateParseStub dbFixture 5 inputBase).status = 500) :=
  C4_update_unknown_id_amended dateParseStub dbFixture 5 inputBase
    (by decide) (by decide)

/-- C5: the update route fully replaces the stored custom-field values of an
existing customer: afterwards they equal exactly the kept entries of the
submitted map, and in particular an empty submitted map leaves the customer
with no stored values, whatever was stored before. -/
theorem C5_update_full_replace (dp : String → Option String) (db : DB)
    (cid : Int) (input : CustomerInput)
    (hc : customerExists db cid = true)
    (hf : ∀ r ∈ validRows cid input.customFields, fieldExists db r.fieldId = true) :
    (updateCustomer dp db cid input).status = 200 ∧
    valuesFor (updateCustomer dp db cid input).db cid
      = validRows cid input.customFields ∧
    (input.customFields = some [] →
      valuesFor (updateCustomer dp db cid input).db cid = []) := by
  obtain ⟨h1, _, h3⟩ := updateCustomer_success dp db cid input hc hf
  refine ⟨h1, h3, ?_⟩
  intro hempty
  rw [h3, hempty]
  rfl

/-- C5 witness: updating the fixture customer 1, which holds a stored value,
with an empty submitted list clears its stored values. -/
theorem C5_update_full_replace_witness :
    (updateCustomer dateParseStub dbFixture 1 inputEmptyValues).status = 200 ∧
    valuesFor (updateCustomer dateParseStub dbFixture 1 inputEmptyValues).db 1
      = validRows 1 inputEmptyValues.customFields ∧
    (inputEmptyValues.customFields = some [] →
      valuesFor (updateCustomer dateParseStub dbFixture 1 inputEmptyValues).db 1
        = []) :=
  C5_update_full_replace dateParseStub dbFixture 1 inputEmptyValues
    (by decide) (by decide)

/-- Inversion of a successful value insert. -/
theorem insertValues_customers {db : DB} {rows : List ValueRow} {db2 : DB}
    (h : insertValues db rows = some db2) :
    db2.customers = db.customers ∧ db2.values = db.values ++ rows := by
  rw [insertValues] at h
  split at h
  · rw [Option.some_inj] at h
    subst h
    exact ⟨rfl, rfl⟩
  · cases h

/-- C8 amended: a present but unparseable date-of-birth does not fail the
create/update routes with a validation error; formattedDob falls back to
null, the operation proceeds, and whenever the row for the written customer
is stored it carries a null dob — the submitted date is silently dropped,
not rejected before the write. -/
theorem C8_unparseable_dob_amended (dp : String → Option String) (db : DB)
    (cid : Int) (input : CustomerInput) (s : String)
    (hfresh : ∀ c ∈ db.customers, c.id < db.nextCustomerId)
    (h1 : input.dob = some s) (h2 : s ≠ "") (h3 : dp s = none) :
    formatDob dp input.dob = none ∧
    (∀ c ∈ (createCustomer dp db input).db.customers,
      c.id = db.nextCustomerId → c.dob = none) ∧
    ((updateCustomer dp db cid input).status = 200 →
      ∀ c ∈ (updateCustomer dp db cid input).db.customers,
        c.id = cid → c.dob = none) ∧
    (createCustomer dp db input).status ≠ 400 ∧
    (updateCustomer dp db cid input).status ≠ 400 := by
  have hdob : formatDob dp input.dob = none := by
    rw [h1]
    show (if s != "" then dp s else none) = none
    rw [if_pos (bne_iff_ne.mpr h2), h3]
  refine ⟨hdob, ?_, ?_, ?_, ?_⟩
  · rcases hins : insertValues
        { db with customers := db.customers ++ [newCustomerRow dp db input],
                  nextCustomerId := db.nextCustomerId + 1 }
        (validRows db.nextCustomerId input.customFields) with _ | db2
    · intro c hc hcid
      rw [createCustomer_eq, hins] at hc
      have := hfresh c hc
      omega
    · intro c hc hcid
      rw [createCustomer_eq, hins] at hc
      have hcs := (insertValues_customers hins).1
      rw [hcs] at hc
      rcases List.mem_append.mp hc with hl | hr
      · have := hfresh c hl
        omega
      · rw [List.mem_singleton] at hr
        subst hr
        exact hdob
  · rcases hins : insertValues
        { db with customers := db.customers.map (updateBaseRow dp input cid),
                  values := db.values.filter (fun v => v.customerId != cid) }
        (validRows cid input.customFields) with _ | db3
    · intro hstat
      rw [updateCustomer_eq, hins] at hstat
      simp at hstat
    · intro _ c hc hcid
      rw [updateCustomer_eq, hins] at hc
      have hcs := (insertValues_customers hins).1
      rw [hcs] at hc
      dsimp only at hc
      rcases List.mem_map.mp hc with ⟨c0, hc0, rfl⟩
      by_cases hbeq : (c0.id == cid) = true
      · show (updateBaseRow dp input cid c0).dob = none
        rw [updateBaseRow, if_pos hbeq]
        exact hdob
      · rw [updateBaseRow, if_neg hbeq] at hcid
        exact absurd (beq_iff_eq.mpr hcid) hbeq
  · rcases hins : insertValues
        { db with customers := db.customers ++ [newCustomerRow dp db input],
                  nextCustomerId := db.nextCustomerId + 1 }
        (validRows db.nextCustomerId input.customFields) with _ | db2
    · rw [createCustomer_eq, hins]
      simp
    · rw [createCustomer_eq, hins]
      simp
  · rcases hins : insertValues
        { db with customers := db.customers.map (updateBaseRow dp input cid),
                  values := db.values.filter (fun v => v.customerId != cid) }
        (validRows cid input.customFields) with _ | db3
    · rw [updateCustomer_eq, hins]
      simp
    · rw [updateCustomer_eq, hins]
      simp

/-- C8 counterexample: the JavaScript Date constructor yields Invalid Date
on the string of inputBadDob (it has no digits), which dateParseStub
reflects; the create commits with status 201 and the stored record carries
a null dob — no ValidationError, no rejection before the write, where the
claim demanded failing fast. -/
theorem C8_unparseable_dob_stored_null :
    (createCustomer dateParseStub DB.empty inputBadDob).status = 201 ∧
    getCustomer (createCustomer dateParseStub DB.empty inputBadDob).db 1
      = some ({ id := 1, name := "Ann", dob := none, phone := "p", email := "e",
                occupation := "o", location := "l" }, []) := by
  decide

/-- C8 witness for the amended statement: evaluated with the unparseable dob
fixture against the fixture database. -/
theorem C8_unparseable_dob_amended_witness :
    formatDob dateParseStub inputBadDob.dob = none ∧
    (∀ c ∈ (createCustomer dateParseStub dbFixture inputBadDob).db.customers,
      c.id = dbFixture.nextCustomerId → c.dob = none) ∧
    ((updateCustomer dateParseStub dbFixture 1 inputBadDob).status = 200 →
      ∀ c ∈ (updateCustomer dateParseStub dbFixture 1 inputBadDob).db.customers,
        c.id = 1 → c.dob = none) ∧
    (createCustomer dateParseStub dbFixture inputBadDob).status ≠ 400 ∧
    (updateCustomer dateParseStub dbFixture 1 inputBadDob).status ≠ 400 :=
  C8_unparseable_dob_amended dateParseStub dbFixture 1 inputBadDob "not-a-date"
    (by decide) rfl (by decide) rfl

/-- C9: on success, both mutating customer routes echo the submitted
customFields list verbatim in the response body — including entries the
filter dropped before insert; concretely, a create submitting the
non-numeric field id abc returns a body carrying that entry while the
stored record read back holds no entry at all. -/
theorem C9_response_echoes_submitted (dp : String → Option String) (db : DB)
    (cid : Int) (input : CustomerInput) :
    ((createCustomer dp db input).status = 201 →
      (createCustomer dp db input).echo = input.customFields) ∧
    ((updateCustomer dp db cid input).status = 200 →
      (updateCustomer dp db cid input).echo = input.customFields) ∧
    ((createCustomer dateParseStub DB.empty inputBadField).status = 201 ∧
     (createCustomer dateParseStub DB.empty inputBadField).echo
       = some [{ id := some "abc", value := "v" }] ∧
     (getCustomer (createCustomer dateParseStub DB.empty inputBadField).db 1).map
       Prod.snd = some []) := by
  refine ⟨?_, ?_, by decide⟩
  · rcases hins : insertValues
        { db with customers := db.customers ++ [newCustomerRow dp db input],
                  nextCustomerId := db.nextCustomerId + 1 }
        (validRows db.nextCustomerId input.customFields) with _ | db2
    · intro hstat
      rw [createCustomer_eq, hins] at hstat
      simp at hstat
    · intro _
      rw [createCustomer_eq, hins]
  · rcases hins : insertValues
        { db with customers := db.customers.map (updateBaseRow dp input cid),
                  values := db.values.filter (fun v => v.customerId != cid) }
        (validRows cid input.customFields) with _ | db3
    · intro hstat
      rw [updateCustomer_eq, hins] at hstat
      simp at hstat
    · intro _
      rw [updateCustomer_eq, hins]

/-- C9 witness: the create echo evaluated on the empty database with the
base fixture input. -/
theorem C9_response_echoes_submitted_witness :
    (createCustomer dateParseStub DB.empty inputBase).echo = inputBase.customFields :=
  (C9_response_echoes_submitted dateParseStub DB.empty 1 inputBase).1 (by decide)

/-- C10 counterexample: two string-valued options payloads on which the
parser does not return a list, against the claim that it always does: the
empty string is falsy in JavaScript, so the field is returned unchanged
with its options still the string; and a payload that JSON-parses to a
scalar (JSON.parse of the string of a single digit yields that number)
comes back as that scalar. -/
theorem C10_string_options_counterexample :
    (parseCustomFieldOptions jsonParseStub (some emptyOptField) = some emptyOptField ∧
     emptyOptField.options.isArr = false) ∧
    (parseCustomFieldOptions (fun _ => some (JsValue.num 5)) (some numOptField)
       = some { name := "Annual Revenue", ftype := "number",
                options := JsValue.num 5 } ∧
     (JsValue.num 5).isArr = false) :=
  ⟨⟨rfl, rfl⟩, ⟨rfl, rfl⟩⟩

/-- C10 amended: option parsing on read is total and never throws; for a
field whose options is a nonempty string it yields the comma-split-and-
trimmed list when the string contains a comma and does not start with a
bracket, otherwise the JSON-parsed value when parsing succeeds (which need
not be a list), and the empty list when parsing fails; an empty-string
options and non-string options are returned unchanged. -/
theorem C10_parse_options_total_amended (jsonParse : String → Option JsValue)
    (f : ClientField) :
    parseCustomFieldOptions jsonParse (some f)
      = some { f with options := optionsSpec jsonParse f.options } ∧
    parseCustomFieldOptions jsonParse none = none := by
  refine ⟨?_, rfl⟩
  rcases f with ⟨nm, t, o⟩
  cases o with
  | null => rfl
  | num n => rfl
  | boolean b => rfl
  | arr xs => rfl
  | str s =>
    by_cases hs : s = ""
    · subst hs
      rfl
    · have hbne : (s != "") = true := bne_iff_ne.mpr hs
      by_cases hc : jsIncludes s ',' = true ∧ jsStartsWith s '[' = false
      · have hcb : (jsIncludes s ',' && !(jsStartsWith s '[')) = true := by
          rw [hc.1, hc.2]
          rfl
        simp [parseCustomFieldOptions, optionsSpec, hbne, hs, hcb, hc]
      · have hcb : (jsIncludes s ',' && !(jsStartsWith s '[')) = false := by
          cases hcc : jsIncludes s ',' with
          | false => rfl
          | true =>
            cases hsw : jsStartsWith s '[' with
            | true => rfl
            | false => exact absurd ⟨hcc, hsw⟩ hc
        cases hjp : jsonParse s with
        | none => simp [parseCustomFieldOptions, optionsSpec, hbne, hs, hcb, hc, hjp]
        | some v => simp [parseCustomFieldOptions, optionsSpec, hbne, hs, hcb, hc, hjp]

end CustomDataKeeper
